import Mathlib

/-!
# Verification of the lumo dataset-builder and artifact-saver components

Shallow embedding of `lumo/kit/builder.py` (the `BaseBuilder` / `DatasetBuilder` /
`ChainDataset` / `ZipDataset` classes), `lumo/proc/config.py` (`get_config`,
`get_runtime_config`) and the `Saver` retention scheme, together with theorems
settling the behavioural claims about them.

Python dictionaries (`dict` / `OrderedDict`) are embedded as insertion-ordered
association lists `List (String × α)`; Python lists as Lean `List`s; sample
values as `Nat` (the claims quantify over plain sized sources, whose elements
are opaque to the builder logic); fallible operations (out-of-range indexing,
failed assertions, `TypeError`s) return `Option` / `Except`.
-/

namespace Lumo

/-! ### Python dict and list primitives -/

/-- Lookup in an association list embedding a Python dict (first match wins;
well-formed dicts have unique keys, where the first match is the only one). -/
def alistLookup {α : Type} : List (String × α) → String → Option α
  | [], _ => none
  | (k', v) :: rest, k => if k' = k then some v else alistLookup rest k

/-- `k in d` for a Python dict. -/
def alistMem {α : Type} (d : List (String × α)) (k : String) : Bool :=
  (alistLookup d k).isSome

/-- `if k in d: d[k] = f(d[k])` — update the value at key `k` in place (keeping
its position, as Python dict assignment to an existing key does); no-op when
the key is absent. -/
def alistAdjust {α : Type} (d : List (String × α)) (k : String) (f : α → α) :
    List (String × α) :=
  d.map (fun p => if p.1 = k then (p.1, f p.2) else p)

/-- `d[k] = v` on a Python dict: overwrite in place when the key exists,
append otherwise. -/
def dict_set {α : Type} (d : List (String × α)) (k : String) (v : α) :
    List (String × α) :=
  if alistMem d k then d.map (fun p => if p.1 = k then (p.1, v) else p)
  else d ++ [(k, v)]

/-- `d.update(o)` on Python dicts: set every key of `o` into `d`, left to right. -/
def dict_update {α : Type} (d o : List (String × α)) : List (String × α) :=
  o.foldl (fun acc p => dict_set acc p.1 p.2) d

/-! ### `BaseBuilder._map_index` (builder.py lines 51–65 and 293–307)

```python
def _map_index(self, index):
    if self._sub_indices is not None:
        index = self._sub_indices[index]
    if self._reindices is not None:
        index = self._reindices[index]
    return index
```
Out-of-range list subscripts raise `IndexError` in Python; embedded as `none`. -/

def map_index (sub re : Option (List Nat)) (index : Nat) : Option Nat :=
  match (match sub with
         | some s => s.get? index
         | none => some index) with
  | none => none
  | some j =>
    match re with
    | some r => r.get? j
    | none => some j

/-! ### `DatasetBuilder` (builder.py lines 160–412)

State of a `DatasetBuilder` whose registered inputs are plain sized sources
(`DataDelegate` inputs are outside the scope of the claims; `delegate.py` is
not among the sources). Sample values are `Nat`. -/

structure DatasetBuilder where
  /-- `_sub_indices` (from `BaseBuilder`). -/
  sub_indices : Option (List Nat) := none
  /-- `_reindices` (from `BaseBuilder`). -/
  re_indices : Option (List Nat) := none
  /-- `_chain` (from `BaseBuilder`), set by `chain()` / cleared by `zip()`. -/
  chainFlag : Bool := false
  /-- `_dataset_len`: length of the first added source, `None` before. -/
  dataset_len : Option Nat := none
  /-- `_input_dict`: `OrderedDict` mapping source name to source. -/
  input_dict : List (String × List Nat) := []
  /-- `_output_dict`: `OrderedDict` mapping outkey to source name. -/
  output_dict : List (String × String) := []
  /-- `_input_transform`: `OrderedDict` mapping source name to transform. -/
  input_transform : List (String × (Nat → Nat)) := []
  /-- `_output_transform`: `OrderedDict` mapping outkey to transform. -/
  output_transform : List (String × (Nat → Nat)) := []
  /-- `_global_transform`: list of sample-level transforms, in registration order. -/
  global_transform : List (List (String × Nat) → List (String × Nat)) := []

/-- `DatasetBuilder.__init__`: every field at its initial value. -/
def DatasetBuilder.new : DatasetBuilder := {}

/-- `DatasetBuilder.raw_len`: `0` when `_dataset_len is None`, else `_dataset_len`. -/
def DatasetBuilder.raw_len (b : DatasetBuilder) : Nat :=
  b.dataset_len.getD 0

/-- `BaseBuilder.__len__`: the subset's length when a subset is set, else `raw_len`. -/
def DatasetBuilder.len (b : DatasetBuilder) : Nat :=
  match b.sub_indices with
  | some s => s.length
  | none => b.raw_len

/-- `BaseBuilder.subset(indices)` (in-place variant, `copy=False`). -/
def DatasetBuilder.subset (b : DatasetBuilder) (indices : List Nat) : DatasetBuilder :=
  { b with sub_indices := some indices }

/-- `BaseBuilder.reindices(indices)`. -/
def DatasetBuilder.reindex (b : DatasetBuilder) (indices : List Nat) : DatasetBuilder :=
  { b with re_indices := some indices }

/-- `BaseBuilder.chain()`: sets `_chain = True`. -/
def DatasetBuilder.chain (b : DatasetBuilder) : DatasetBuilder :=
  { b with chainFlag := true }

/-- `BaseBuilder.zip()`: sets `_chain = False`. -/
def DatasetBuilder.zip (b : DatasetBuilder) : DatasetBuilder :=
  { b with chainFlag := false }

/-- `DatasetBuilder._map_index` applied to the builder's own fields. -/
def DatasetBuilder.mapIndex (b : DatasetBuilder) (index : Nat) : Option Nat :=
  map_index b.sub_indices b.re_indices index

/-! ### `DatasetBuilder.__getitem__` (builder.py lines 181–216)

```python
def __getitem__(self, index):
    index = self._map_index(index)
    names = set(self._output_dict.values())
    raw = {}
    for name in names:
        source_ = self._input_dict[name]
        ...  # DataDelegate branch, outside the claims' scope
        sample_ = source_[index]
        raw[name] = sample_
    for name, transform in self._input_transform.items():
        if name in raw:
            raw[name] = transform(raw[name])
    sample = {outkey: raw[name] for outkey, name in self._output_dict.items()}
    for outkey, transform in self._output_transform.items():
        if outkey in sample:
            sample[outkey] = transform(sample[outkey])
    for transform in self._global_transform:
        sample = transform(sample)
    if self._chain:
        return list(sample.values())
    return sample
```
-/

/-- `set(self._output_dict.values())` — the source names referenced by some
output. (Python set iteration order is arbitrary; `raw` is only read back by
key, so deduplicated insertion order is an equivalent choice.) -/
def DatasetBuilder.outputNames (b : DatasetBuilder) : List String :=
  (b.output_dict.map Prod.snd).dedup

/-- The raw-collection loop of `__getitem__`: `raw[name] = self._input_dict[name][index]`
for each referenced source name. `none` embeds a `KeyError` (name not
registered) or `IndexError` (index out of range). -/
def buildRaw (input_dict : List (String × List Nat)) (index : Nat) :
    List String → Option (List (String × Nat))
  | [] => some []
  | name :: rest =>
    match alistLookup input_dict name with
    | none => none
    | some src =>
      match src.get? index with
      | none => none
      | some v =>
        match buildRaw input_dict index rest with
        | none => none
        | some raw => some ((name, v) :: raw)

/-- `for key, transform in ts.items(): if key in d: d[key] = transform(d[key])` —
the shape of both the input-transform and the output-transform loop. -/
def applyValTransforms (ts : List (String × (Nat → Nat))) (d : List (String × Nat)) :
    List (String × Nat) :=
  ts.foldl (fun d p => alistAdjust d p.1 p.2) d

/-- `sample = {outkey: raw[name] for outkey, name in self._output_dict.items()}`;
`none` embeds the `KeyError` when an output references a name absent from `raw`. -/
def collectSample : List (String × String) → List (String × Nat) →
    Option (List (String × Nat))
  | [], _ => some []
  | (outkey, name) :: rest, raw =>
    match alistLookup raw name with
    | none => none
    | some v =>
      match collectSample rest raw with
      | none => none
      | some tl => some ((outkey, v) :: tl)

/-- The value `__getitem__` returns: the sample dict, or — in chain mode —
`list(sample.values())`. -/
inductive Sample where
  | sdict (entries : List (String × Nat))
  | slist (values : List Nat)
  deriving DecidableEq

/-- `DatasetBuilder.__getitem__` for builders whose inputs are plain sized
sources. -/
def DatasetBuilder.getItem (b : DatasetBuilder) (index : Nat) : Option Sample :=
  match b.mapIndex index with
  | none => none
  | some j =>
    match buildRaw b.input_dict j b.outputNames with
    | none => none
    | some raw0 =>
      let raw := applyValTransforms b.input_transform raw0
      match collectSample b.output_dict raw with
      | none => none
      | some sample0 =>
        let sample1 := applyValTransforms b.output_transform sample0
        let sample2 := b.global_transform.foldl (fun s t => t s) sample1
        if b.chainFlag then some (.slist (sample2.map Prod.snd))
        else some (.sdict sample2)

/-! ### Specification-side descriptions of a sample (for the claims) -/

/-- The element of the source registered under `name` at (already mapped)
index `j`. -/
def sourceElem (b : DatasetBuilder) (j : Nat) (name : String) : Option Nat :=
  (alistLookup b.input_dict name).bind (fun src => src.get? j)

/-- Apply, in order, every transform of `ts` whose key is `k` to `v` (a
well-formed `OrderedDict` of transforms has at most one entry per key). -/
def applyKeyed (ts : List (String × (Nat → Nat))) (k : String) (v : Nat) : Nat :=
  ts.foldl (fun v p => if p.1 = k then p.2 v else v) v

/-- The per-field sample the spec describes: one entry per registered output,
in outkey insertion order, whose value is the raw source element under the
input transform of its source name and then the output transform of its
outkey. `g name` stands for the raw element of source `name` at the mapped
index. -/
def perFieldSample (b : DatasetBuilder) (g : String → Nat) : List (String × Nat) :=
  b.output_dict.map
    (fun p => (p.1, applyKeyed b.output_transform p.1 (applyKeyed b.input_transform p.2 (g p.2))))

/-- Return shape of `__getitem__`: the dict, or its values in insertion order
when chain mode is on. -/
def chainWrap (flag : Bool) (s : List (String × Nat)) : Sample :=
  if flag then .slist (s.map Prod.snd) else .sdict s

/-- A builder violating claim C1's literal reading: it has one plain source
and one registered output, but a global transform that replaces the sample
dict wholesale, so `__getitem__`'s keys are not the registered outkeys. -/
def cGlobalBuilder : DatasetBuilder :=
  { dataset_len := some 1
    input_dict := [("x", [10])]
    output_dict := [("a", "x")]
    global_transform := [fun _ => [("b", 99)]] }

/-- Witness builder: subset `[1,0]`, two sources, three outputs (two sharing
source `"x"`), an input transform on `"x"` and an output transform on `"b"`. -/
def wBuilder : DatasetBuilder :=
  { sub_indices := some [1, 0]
    dataset_len := some 2
    input_dict := [("x", [5, 7]), ("y", [11, 13])]
    output_dict := [("a", "x"), ("b", "y"), ("c", "x")]
    input_transform := [("x", fun v => v + 1)]
    output_transform := [("b", fun v => v * 2)] }

/-- Witness builder with two global transforms (order-sensitive: the first
appends an entry, the second shifts every value). -/
def wBuilder4 : DatasetBuilder :=
  { dataset_len := some 1
    input_dict := [("x", [5])]
    output_dict := [("a", "x")]
    input_transform := [("x", fun v => v + 1)]
    output_transform := [("a", fun v => v * 2)]
    global_transform := [fun s => s ++ [("n", 1)],
                         fun s => s.map (fun p => (p.1, p.2 + 100))] }

/-! ### `ChainDataset` and `ZipDataset` (builder.py lines 429–498)

`ConcatDataset.__init__` stores the tuple of constituent builders in
`self._chunk` (and requires at least one builder: it reads `args[0]._chain`). -/

structure ChainDataset where
  chunk : List DatasetBuilder
  sub_indices : Option (List Nat) := none
  re_indices : Option (List Nat) := none

/-- Python list subscript with negative-index wraparound; `none` embeds
`IndexError`. -/
def pyGet {α : Type} (l : List α) (i : Int) : Option α :=
  if i < 0 then
    if i + l.length < 0 then none else l.get? (i + l.length).toNat
  else l.get? i.toNat

/-- The loop `for i, offset in enumerate(accumulate(lens, add)): if index < offset: …`
of `ChainDataset.__getitem__`: yields `lens[i]` for the first position whose
cumulative length exceeds `index` (`none` when the loop falls through, in
which case the Python method returns `None`). -/
def chainLocate : List Nat → Nat → Nat → Option Nat
  | [], _, _ => none
  | l :: ls, offset, index =>
    if index < offset + l then some l else chainLocate ls (offset + l) index

/-- `ChainDataset.__getitem__` as written (builder.py lines 450–456):

```python
def __getitem__(self, index):
    index = self._map_index(index)
    lens = [len(i) for i in self._chunk]
    for i, offset in enumerate(accumulate(lens, add)):
        if index < offset:
            return self._chunk[index - lens[i]]
```
The return subscripts the builder tuple `self._chunk` — the result is a
constituent `DatasetBuilder` object, not a sample. -/
def ChainDataset.getItemCode (c : ChainDataset) (index : Nat) : Option DatasetBuilder :=
  match map_index c.sub_indices c.re_indices index with
  | none => none
  | some idx =>
    let lens := c.chunk.map DatasetBuilder.len
    match chainLocate lens 0 idx with
    | none => none
    | some leni => pyGet c.chunk ((idx : Int) - (leni : Int))

/-- `ChainDataset.raw_len = sum(len(i) for i in self._chunk)` (lines 458–460). -/
def ChainDataset.raw_len (c : ChainDataset) : Nat :=
  (c.chunk.map DatasetBuilder.len).sum

structure ZipDataset where
  chunk : List DatasetBuilder
  sub_indices : Option (List Nat) := none
  re_indices : Option (List Nat) := none

/-- Python built-in `max` over a sequence; `ValueError` (`none`) on an empty
sequence. -/
def pyMax : List Nat → Option Nat
  | [] => none
  | x :: xs => some (xs.foldl Nat.max x)

/-- `ZipDataset.raw_len = max(len(i) for i in self._chunk)` (lines 471–473). -/
def ZipDataset.raw_len (z : ZipDataset) : Option Nat :=
  pyMax (z.chunk.map DatasetBuilder.len)

/-- A length-1 constituent builder whose only sample is `{"a": 10}`. -/
def cb1 : DatasetBuilder :=
  { dataset_len := some 1, input_dict := [("x", [10])], output_dict := [("a", "x")] }

/-- A length-1 constituent builder whose only sample is `{"a": 20}`. -/
def cb2 : DatasetBuilder :=
  { dataset_len := some 1, input_dict := [("x", [20])], output_dict := [("a", "x")] }

/-- A length-3 constituent builder (samples `{"a": 30|31|32}`). -/
def cb3 : DatasetBuilder :=
  { dataset_len := some 3, input_dict := [("x", [30, 31, 32])],
    output_dict := [("a", "x")] }

/-- A `ChainDataset` over two length-1 builders. -/
def cchain : ChainDataset := { chunk := [cb1, cb2] }

/-- A `ZipDataset` over builders of lengths 1 and 3. -/
def wZip : ZipDataset := { chunk := [cb1, cb3] }

/-! ### `BaseBuilder.shuffle` (builder.py lines 94–99)

```python
def shuffle(self):
    ids = list(range(len(self.raw_len)))
    random.shuffle(ids)
    self._reindices = ids
    return self
```
(the method first brings the `random` module into scope). -/

/-- A Python object, as far as the built-in `len()` is concerned. -/
inductive PyObj where
  | int (n : Nat)
  | list (l : List Nat)

/-- Python built-in `len`: the length of a sized container; `TypeError`
(`none`) on an `int`. -/
def pyLen : PyObj → Option Nat
  | .int _ => none
  | .list l => some l.length

/-- The computation of `ids` in `shuffle`: `list(range(len(self.raw_len)))`,
with `len()` applied to the integer property `raw_len`. `random.shuffle(ids)`
and the assignment to `_reindices` only run after this expression, so `none`
(the `TypeError`) means `shuffle` raises before touching `_reindices`. -/
def DatasetBuilder.shuffleIds (b : DatasetBuilder) : Option (List Nat) :=
  (pyLen (PyObj.int b.raw_len)).map List.range

/-! ### `_check_len` / `add_input` (builder.py lines 40–49 and 314–324) -/

/-- `BaseBuilder._check_len`: record the first source's length in
`_dataset_len`; assert every later source has that same length. -/
def check_len (b : DatasetBuilder) (source : List Nat) : Except String DatasetBuilder :=
  match b.dataset_len with
  | none => .ok { b with dataset_len := some source.length }
  | some n =>
    if n = source.length then .ok b
    else .error "source size mismatch"

/-- `DatasetBuilder.add_input(name, source)`: `_check_len(source)`, then
`_check_source_name(name, added=True)` (assert `name` is not yet a key of
`_input_dict`), then `self._input_dict[name] = source`. -/
def DatasetBuilder.add_input (b : DatasetBuilder) (name : String) (source : List Nat) :
    Except String DatasetBuilder :=
  match check_len b source with
  | .error e => .error e
  | .ok b1 =>
    if alistMem b1.input_dict name then .error "source has been added"
    else .ok { b1 with input_dict := b1.input_dict ++ [(name, source)] }

/-- Builder well-formedness maintained by `add_input`: `_dataset_len` is
`None` only while no source is registered, and every registered source has
length `_dataset_len`. -/
def BuilderWF (b : DatasetBuilder) : Prop :=
  (b.dataset_len = none → b.input_dict = [])
  ∧ (∀ n, b.dataset_len = some n → ∀ p ∈ b.input_dict, (p.2 : List Nat).length = n)

/-- A builder holding one source `"x"` of length 2 (for the C8 witness). -/
def b8 : DatasetBuilder :=
  { dataset_len := some 2, input_dict := [("x", [1, 2])] }

/-! ### `Saver` retention (spec-modelled; used by `examples/5.saver.py`) -/

/-- Modelled from the spec: the `Saver` class itself is not among the provided
sources — only its usage in `examples/5.saver.py`
(`Saver("./sav", max_to_keep=3)`; `save_checkpoint` / `save_keypoint` /
`save_model`; `find_checkpoints` / `find_keypoints` / `find_models`). The spec
describes it as an "experiment-artifact saver (checkpoint/keypoint/model
persistence with retention limits)", "a straightforward file-naming/retention
scheme over a filesystem". Artifacts are identified here by `Nat` stamps; the
three kinds are kept in separate save-ordered lists. -/
structure Saver where
  max_to_keep : Nat
  checkpoints : List Nat := []
  keypoints : List Nat := []
  models : List Nat := []

/-- Modelled from the spec: the retention limit — keep only the `k` most
recently saved artifacts, i.e. the length-`k` suffix of the save history. -/
def retain (k : Nat) (l : List Nat) : List Nat := l.drop (l.length - k)

def Saver.save_checkpoint (s : Saver) (a : Nat) : Saver :=
  { s with checkpoints := retain s.max_to_keep (s.checkpoints ++ [a]) }

def Saver.save_keypoint (s : Saver) (a : Nat) : Saver :=
  { s with keypoints := retain s.max_to_keep (s.keypoints ++ [a]) }

def Saver.save_model (s : Saver) (a : Nat) : Saver :=
  { s with models := retain s.max_to_keep (s.models ++ [a]) }

/-- One save call, of any of the three kinds. -/
inductive SaveOp where
  | ckpt (a : Nat)
  | keypt (a : Nat)
  | modl (a : Nat)

/-- Run a sequence of save calls against a `Saver`. -/
def Saver.runOps (s : Saver) : List SaveOp → Saver
  | [] => s
  | op :: ops =>
    (match op with
     | .ckpt a => s.save_checkpoint a
     | .keypt a => s.save_keypoint a
     | .modl a => s.save_model a).runOps ops

/-- The checkpoint artifacts of a save sequence, in save order. -/
def ckptItems (ops : List SaveOp) : List Nat :=
  ops.filterMap (fun op => match op with | .ckpt a => some a | _ => none)

/-- The keypoint artifacts of a save sequence, in save order. -/
def keyptItems (ops : List SaveOp) : List Nat :=
  ops.filterMap (fun op => match op with | .keypt a => some a | _ => none)

/-- The model artifacts of a save sequence, in save order. -/
def modlItems (ops : List SaveOp) : List Nat :=
  ops.filterMap (fun op => match op with | .modl a => some a | _ => none)

/-- The save sequence of `examples/5.saver.py` shortened to 4 saves per kind
against `max_to_keep = 3`. -/
def wOps : List SaveOp :=
  [.ckpt 0, .keypt 10, .modl 20, .ckpt 1, .keypt 11, .modl 21,
   .ckpt 2, .keypt 12, .modl 22, .ckpt 3, .keypt 13, .modl 23]

/-! ### `get_config` / `get_runtime_config` (config.py lines 24–48) -/

/-- `GLOBAL_DEFAULT` (config.py lines 6–9). The values come from
`os.path.expanduser` and are environment-dependent; they are opaque to the
merge logic, so the unexpanded literals stand in for them. -/
def GLOBAL_DEFAULT : List (String × String) :=
  [("home", "~/.lumo/"), ("cache_dir", "~/.cache/lumo")]

/-- `get_config(path, default)` (config.py lines 24–39). The filesystem is
abstracted as `fs : String → Option (Option config)`: `none` — the path does
not exist; `some none` — the file exists but `json.load` raises (the code
prints an error and falls through); `some (some cfg)` — the file exists and
parses to `cfg`. In both failure cases the code writes `default` back to the
path and returns `default`; only the returned value is embedded. -/
def get_config (path : Option String)
    (fs : String → Option (Option (List (String × String))))
    (default : List (String × String)) : List (String × String) :=
  match path with
  | none => default
  | some p =>
    match fs p with
    | some (some config) => config
    | some none => default
    | none => default

/-- `get_runtime_config()` (config.py lines 42–48):

```python
glob_cfg = get_config(global_config_path(), GLOBAL_DEFAULT)
local_cfg = get_config(local_config_path(), {})
cfg = GLOBAL_DEFAULT
cfg.update(glob_cfg)
cfg.update(local_cfg)
return cfg
```
`global_config_path()` and `local_config_path()` touch the environment
(`expanduser`, `git_dir`), so the two paths are parameters; `local_path` is
`none` when `local_config_path()` returns `None` (no enclosing git repo). -/
def get_runtime_config (fs : String → Option (Option (List (String × String))))
    (global_path : String) (local_path : Option String) : List (String × String) :=
  let glob_cfg := get_config (some global_path) fs GLOBAL_DEFAULT
  let local_cfg := get_config local_path fs []
  dict_update (dict_update GLOBAL_DEFAULT glob_cfg) local_cfg

/-- Concrete filesystem for the C10 witness: a global config overriding
`"home"` and adding `"k1"`, a local config overriding `"k1"`. -/
def wFs : String → Option (Option (List (String × String))) :=
  fun p =>
    if p = "/g" then some (some [("home", "G"), ("k1", "g1")])
    else if p = "/l" then some (some [("k1", "l1")])
    else none

/-! ### Theorems for claim C2 -/

/-- C2: for every builder and index, `_map_index` computes
`reindices[sub_indices[i]]` when both a subset and reindices are set (the
subset applied first), `sub_indices[i]` when only a subset is set,
`reindices[i]` when only reindices are set, and `i` itself when neither is set. -/
theorem map_index_cases (s r : List Nat) (i : Nat) :
    (∀ (h1 : i < s.length) (h2 : s.get ⟨i, h1⟩ < r.length),
      map_index (some s) (some r) i = some (r.get ⟨s.get ⟨i, h1⟩, h2⟩))
    ∧ (∀ (h1 : i < s.length),
      map_index (some s) none i = some (s.get ⟨i, h1⟩))
    ∧ (∀ (h3 : i < r.length),
      map_index none (some r) i = some (r.get ⟨i, h3⟩))
    ∧ map_index none none i = some i := by
  refine ⟨fun h1 h2 => ?_, fun h1 => ?_, fun h3 => ?_, ?_⟩ <;>
    simp [map_index, List.get?_eq_get, *]

/-- Witness for C2: the four cases of `map_index_cases` evaluated on concrete
subset `[1,0]` and reindices `[10,20]`. -/
theorem map_index_cases_witness :
    map_index (some [1, 0]) (some [10, 20]) 0 = some 20
    ∧ map_index (some [1, 0]) none 0 = some 1
    ∧ map_index none (some [10, 20]) 1 = some 20
    ∧ map_index none none 5 = some 5 := by
  have h1 : 0 < ([1, 0] : List Nat).length := by decide
  have h2 : List.get ([1, 0] : List Nat) ⟨0, h1⟩ < ([10, 20] : List Nat).length :=
    Nat.one_lt_two
  have h3 : 1 < ([10, 20] : List Nat).length := by decide
  exact ⟨(map_index_cases [1, 0] [10, 20] 0).1 h1 h2,
         (map_index_cases [1, 0] [10, 20] 0).2.1 h1,
         (map_index_cases [1, 0] [10, 20] 1).2.2.1 h3,
         (map_index_cases [1, 0] [10, 20] 5).2.2.2⟩

/-! ### Helper lemmas about the `__getitem__` pipeline -/

theorem applyValTransforms_eq_map (ts : List (String × (Nat → Nat))) :
    ∀ d : List (String × Nat),
      applyValTransforms ts d = d.map (fun p => (p.1, applyKeyed ts p.1 p.2)) := by
  induction ts with
  | nil => intro d; simp [applyValTransforms, applyKeyed]
  | cons hd tl ih =>
    intro d
    have step : applyValTransforms (hd :: tl) d
        = applyValTransforms tl (alistAdjust d hd.1 hd.2) := rfl
    rw [step, ih, alistAdjust, List.map_map]
    apply List.map_congr_left
    intro a _
    by_cases h : a.1 = hd.1
    · simp [Function.comp, h, applyKeyed]
    · simp [Function.comp, h, applyKeyed, Ne.symm h]

theorem alistLookup_map_self (f : String → Nat) :
    ∀ (names : List String) (k : String),
      alistLookup (names.map (fun n => (n, f n))) k
        = if k ∈ names then some (f k) else none := by
  intro names
  induction names with
  | nil => intro k; simp [alistLookup]
  | cons n rest ih =>
    intro k
    by_cases h : n = k
    · subst h; simp [alistLookup]
    · simp [alistLookup, h, ih k, List.mem_cons, Ne.symm h]

theorem buildRaw_eq_map (input_dict : List (String × List Nat)) (j : Nat)
    (g : String → Nat) :
    ∀ names : List String,
      (∀ n ∈ names,
        (alistLookup input_dict n).bind (fun src => src.get? j) = some (g n)) →
      buildRaw input_dict j names = some (names.map (fun n => (n, g n))) := by
  intro names
  induction names with
  | nil => intro _; simp [buildRaw]
  | cons n rest ih =>
    intro h
    have hn := h n (List.mem_cons_self n rest)
    cases hsrc : alistLookup input_dict n with
    | none => rw [hsrc] at hn; simp at hn
    | some src =>
      rw [hsrc] at hn
      simp only [Option.some_bind, List.get?_eq_getElem?] at hn
      simp [buildRaw, hsrc, hn, ih (fun m hm => h m (List.mem_cons_of_mem n hm))]

theorem collectSample_eq_map (raw : List (String × Nat)) (w : String → Nat) :
    ∀ out : List (String × String),
      (∀ p ∈ out, alistLookup raw p.2 = some (w p.2)) →
      collectSample out raw = some (out.map (fun p => (p.1, w p.2))) := by
  intro out
  induction out with
  | nil => intro _; simp [collectSample]
  | cons p rest ih =>
    intro h
    obtain ⟨ok, nm⟩ := p
    have hp := h (ok, nm) (List.mem_cons_self _ _)
    simp [collectSample, hp, ih (fun q hq => h q (List.mem_cons_of_mem _ hq))]

/-- Closed form of `__getitem__` when every registered output resolves to an
in-range element of a registered plain source (`g name` being that element):
assemble the per-field sample, apply the global transforms in registration
order, wrap according to chain mode. -/
theorem getItem_eq_spec (b : DatasetBuilder) (i j : Nat) (g : String → Nat)
    (hj : b.mapIndex i = some j)
    (h : ∀ p ∈ b.output_dict, sourceElem b j p.2 = some (g p.2)) :
    b.getItem i
      = some (chainWrap b.chainFlag
          (b.global_transform.foldl (fun s t => t s) (perFieldSample b g))) := by
  have hnames : ∀ n ∈ b.outputNames,
      (alistLookup b.input_dict n).bind (fun src => src.get? j) = some (g n) := by
    intro n hn
    have hn' : n ∈ b.output_dict.map Prod.snd := List.mem_dedup.mp hn
    obtain ⟨p, hp, hpn⟩ := List.mem_map.mp hn'
    subst hpn
    exact h p hp
  have hraw := buildRaw_eq_map b.input_dict j g b.outputNames hnames
  have htrans : applyValTransforms b.input_transform
        (b.outputNames.map (fun n => (n, g n)))
      = b.outputNames.map (fun n => (n, applyKeyed b.input_transform n (g n))) := by
    rw [applyValTransforms_eq_map, List.map_map]
    rfl
  have hlook : ∀ p ∈ b.output_dict,
      alistLookup
          (b.outputNames.map (fun n => (n, applyKeyed b.input_transform n (g n)))) p.2
        = some (applyKeyed b.input_transform p.2 (g p.2)) := by
    intro p hp
    have hmem : p.2 ∈ b.outputNames :=
      List.mem_dedup.mpr (List.mem_map.mpr ⟨p, hp, rfl⟩)
    rw [alistLookup_map_self]
    simp [hmem]
  have hsample := collectSample_eq_map _
      (fun n => applyKeyed b.input_transform n (g n)) b.output_dict hlook
  have hout : applyValTransforms b.output_transform
        (b.output_dict.map (fun p => (p.1, applyKeyed b.input_transform p.2 (g p.2))))
      = perFieldSample b g := by
    rw [applyValTransforms_eq_map, List.map_map]
    rfl
  cases hc : b.chainFlag <;>
    simp [DatasetBuilder.getItem, hj, hraw, htrans, hsample, hout, chainWrap, hc]

/-! ### Theorems for claim C4 -/

/-- C4: transforms are applied per field in a fixed order — each input
transform (keyed by a source name) to that source's raw value first, then
each output transform (keyed by an outkey) to that output's value, and
finally every global transform, in registration order, to the whole sample
dict. -/
theorem transform_order (b : DatasetBuilder) (i j : Nat) (g : String → Nat)
    (hj : b.mapIndex i = some j)
    (h : ∀ p ∈ b.output_dict, sourceElem b j p.2 = some (g p.2)) :
    b.getItem i
      = some (chainWrap b.chainFlag
          (b.global_transform.foldl (fun s t => t s) (perFieldSample b g))) :=
  getItem_eq_spec b i j g hj h

/-- Witness for C4: a builder with an input transform `+1`, an output
transform `*2` and two global transforms (append an entry, then shift every
value by `+100`); the sample shows the order input → output → globals. -/
theorem transform_order_witness :
    wBuilder4.getItem 0 = some (.sdict [("a", 112), ("n", 101)]) :=
  transform_order wBuilder4 0 0 (fun _ => 5) rfl (by decide)

/-! ### Theorems for claim C1 -/

/-- C1 (amended): for every DatasetBuilder whose registered inputs are plain
sized sources, with no global transforms registered, and every resolvable
in-range index, `__getitem__` returns a dict whose keys are exactly the
registered outkeys, each mapped to the element of its associated source at
the mapped index (after the input and output transforms); in chain mode it
instead returns the list of those values in outkey insertion order. -/
theorem getitem_fields (b : DatasetBuilder) (i j : Nat) (g : String → Nat)
    (hg : b.global_transform = [])
    (hj : b.mapIndex i = some j)
    (h : ∀ p ∈ b.output_dict, sourceElem b j p.2 = some (g p.2)) :
    (b.chainFlag = false → b.getItem i = some (.sdict (perFieldSample b g)))
    ∧ (b.chainFlag = true →
      b.getItem i = some (.slist ((perFieldSample b g).map Prod.snd))) := by
  have hmain := getItem_eq_spec b i j g hj h
  rw [hg] at hmain
  constructor <;> intro hc <;> rw [hmain] <;> simp [chainWrap, hc]

/-- Counterexample to C1 as stated: `cGlobalBuilder`'s inputs are plain sized
sources, yet its registered global transform replaces the assembled sample,
so `__getitem__ 0` returns a dict whose key list `["b"]` is not the
registered outkey list `["a"]`. -/
theorem getitem_global_counterexample :
    cGlobalBuilder.getItem 0 = some (.sdict [("b", 99)])
    ∧ List.map Prod.fst [(("b" : String), (99 : Nat))]
      ≠ cGlobalBuilder.output_dict.map Prod.fst := by
  constructor
  · rfl
  · decide

/-- Witness for C1 (amended): `wBuilder` (subset `[1,0]`, shared source `"x"`,
input transform on `"x"`, output transform on `"b"`) at index 0. -/
theorem getitem_fields_witness :
    wBuilder.getItem 0 = some (.sdict [("a", 8), ("b", 26), ("c", 8)]) :=
  (getitem_fields wBuilder 0 1 (fun n => if n = "x" then 7 else 13)
    rfl rfl (by decide)).1 rfl

/-! ### Theorems for claim C3 -/

/-- C3 (code evaluated at the failing input): for the chain of two length-1
builders, `__getitem__(0)` — an index inside the first builder's range —
returns the *second constituent builder object* (`self._chunk[index - lens[i]]`
is `_chunk[0 - 1]`, i.e. `_chunk[-1]` by Python negative indexing), not the
first builder's sample at offset 0, which is `{"a": 10}`. -/
theorem chain_getitem_returns_builder :
    cchain.getItemCode 0 = some cb2
    ∧ cb1.getItem 0 = some (.sdict [("a", 10)])
    ∧ cb2.getItem 0 = some (.sdict [("a", 20)]) :=
  ⟨rfl, rfl, rfl⟩

/-! ### Theorems for claim C5 -/

theorem foldl_max_bounds : ∀ (xs : List Nat) (x : Nat),
    x ≤ xs.foldl Nat.max x
    ∧ (∀ y ∈ xs, y ≤ xs.foldl Nat.max x)
    ∧ (xs.foldl Nat.max x = x ∨ xs.foldl Nat.max x ∈ xs) := by
  intro xs
  induction xs with
  | nil => intro x; exact ⟨le_refl x, by simp, Or.inl rfl⟩
  | cons y ys ih =>
    intro x
    have h := ih (Nat.max x y)
    rw [List.foldl_cons]
    refine ⟨le_trans (Nat.le_max_left x y) h.1, ?_, ?_⟩
    · intro z hz
      rcases List.mem_cons.mp hz with hz | hz
      · subst hz; exact le_trans (Nat.le_max_right _ _) h.1
      · exact h.2.1 z hz
    · rcases h.2.2 with heq | hmem
      · have hc : Nat.max x y = x ∨ Nat.max x y = y := by
          rcases Nat.le_total x y with hle | hle
          · exact Or.inr (Nat.max_eq_right hle)
          · exact Or.inl (Nat.max_eq_left hle)
        rcases hc with hc | hc
        · left; rw [heq, hc]
        · right; rw [heq, hc]; exact List.mem_cons_self y ys
      · right; exact List.mem_cons_of_mem y hmem

/-- C5: a `ChainDataset`'s raw length is the sum of its constituent builders'
lengths, and a (non-empty) `ZipDataset`'s raw length is the maximum of its
constituent builders' lengths. -/
theorem concat_raw_len_spec (c : ChainDataset) (z : ZipDataset) (hz : z.chunk ≠ []) :
    c.raw_len = (c.chunk.map DatasetBuilder.len).sum
    ∧ ∃ m, z.raw_len = some m
        ∧ (∀ b ∈ z.chunk, b.len ≤ m)
        ∧ ∃ b ∈ z.chunk, b.len = m := by
  refine ⟨rfl, ?_⟩
  cases hch : z.chunk with
  | nil => exact absurd hch hz
  | cons b0 bs =>
    refine ⟨(bs.map DatasetBuilder.len).foldl Nat.max b0.len, ?_, ?_, ?_⟩
    · simp [ZipDataset.raw_len, pyMax, hch]
    · intro b hb
      have h := foldl_max_bounds (bs.map DatasetBuilder.len) b0.len
      rcases List.mem_cons.mp hb with hb0 | hbs
      · subst hb0; exact h.1
      · exact h.2.1 _ (List.mem_map.mpr ⟨b, hbs, rfl⟩)
    · rcases (foldl_max_bounds (bs.map DatasetBuilder.len) b0.len).2.2 with heq | hmem
      · exact ⟨b0, List.mem_cons_self _ _, heq.symm⟩
      · obtain ⟨b, hb, hbl⟩ := List.mem_map.mp hmem
        exact ⟨b, List.mem_cons_of_mem _ hb, hbl⟩

/-- Witness for C5: the chain over two length-1 builders and the zip over
builders of lengths 1 and 3. -/
theorem concat_raw_len_spec_witness :
    cchain.raw_len = (cchain.chunk.map DatasetBuilder.len).sum
    ∧ ∃ m, wZip.raw_len = some m
        ∧ (∀ b ∈ wZip.chunk, b.len ≤ m)
        ∧ ∃ b ∈ wZip.chunk, b.len = m :=
  concat_raw_len_spec cchain wZip (List.cons_ne_nil _ _)

/-! ### Theorems for claim C6 -/

/-- C6 (code evaluated): `shuffle` always raises — the expression
`ids = list(range(len(self.raw_len)))` applies `len()` to the integer
property `raw_len`, a `TypeError`, before `random.shuffle` runs or
`_reindices` is assigned; so `shuffle` never sets `_reindices` to a
permutation of `range(raw_len)`. -/
theorem shuffle_len_of_int (b : DatasetBuilder) : b.shuffleIds = none := rfl

/-! ### Theorems for claim C9 -/

/-- C9: `len(builder)` is the length of the subset indices when a subset is
set and `raw_len` otherwise (0 for a `DatasetBuilder` before any source is
added); after `subset(indices)` the length is `len(indices)` regardless of
the sources' sizes. -/
theorem builder_len_spec (b : DatasetBuilder) (s indices : List Nat) :
    (b.sub_indices = some s → b.len = s.length)
    ∧ (b.sub_indices = none → b.len = b.raw_len)
    ∧ (b.dataset_len = none → b.raw_len = 0)
    ∧ DatasetBuilder.new.raw_len = 0
    ∧ (b.subset indices).len = indices.length := by
  refine ⟨fun h => ?_, fun h => ?_, fun h => ?_, rfl, rfl⟩
  · simp [DatasetBuilder.len, h]
  · simp [DatasetBuilder.len, h]
  · simp [DatasetBuilder.raw_len, h]

/-- Witness for C9: `b8` (one source of length 2, no subset) and a 5-element
subset of it. -/
theorem builder_len_spec_witness :
    b8.len = b8.raw_len
    ∧ DatasetBuilder.new.raw_len = 0
    ∧ (b8.subset [0, 0, 1, 1, 0]).len = 5 := by
  have h := builder_len_spec b8 [] [0, 0, 1, 1, 0]
  exact ⟨h.2.1 rfl, h.2.2.2.1, h.2.2.2.2⟩

/-! ### Theorems for claim C8 -/

/-- C8: `add_input(name, source)` raises when the new source's length differs
from the length of any previously added source, raises when a source of the
same name has already been added, and on success registers the source under
`name` and returns the builder with all previously added sources unchanged
(the new entry is appended after them). -/
theorem add_input_spec (b : DatasetBuilder) (name : String) (source : List Nat) :
    (BuilderWF b → ∀ p ∈ b.input_dict, (p.2 : List Nat).length ≠ source.length →
      ∃ e, b.add_input name source = .error e)
    ∧ (alistMem b.input_dict name = true →
      ∃ e, b.add_input name source = .error e)
    ∧ (alistMem b.input_dict name = false →
      (∀ n, b.dataset_len = some n → n = source.length) →
      b.add_input name source
        = .ok { b with dataset_len := some source.length,
                       input_dict := b.input_dict ++ [(name, source)] }) := by
  refine ⟨?_, ?_, ?_⟩
  · intro hwf p hp hne
    cases hd : b.dataset_len with
    | none =>
      have hnil : b.input_dict = [] := hwf.1 hd
      rw [hnil] at hp
      exact absurd hp (List.not_mem_nil p)
    | some n =>
      have hlen : p.2.length = n := hwf.2 n hd p hp
      have hne' : ¬ n = source.length := by rw [← hlen]; exact hne
      exact ⟨"source size mismatch", by
        simp [DatasetBuilder.add_input, check_len, hd, hne']⟩
  · intro hmem
    cases hd : b.dataset_len with
    | none =>
      exact ⟨"source has been added", by
        simp [DatasetBuilder.add_input, check_len, hd, hmem]⟩
    | some n =>
      by_cases hn : n = source.length
      · exact ⟨"source has been added", by
          simp [DatasetBuilder.add_input, check_len, hd, hn, hmem]⟩
      · exact ⟨"source size mismatch", by
          simp [DatasetBuilder.add_input, check_len, hd, hn]⟩
  · intro hmem hlen
    cases hd : b.dataset_len with
    | none =>
      simp [DatasetBuilder.add_input, check_len, hd, hmem]
    | some n =>
      have hn := hlen n hd
      subst hn
      have hstep : b.add_input name source
          = .ok { b with input_dict := b.input_dict ++ [(name, source)] } := by
        simp [DatasetBuilder.add_input, check_len, hd, hmem]
      rw [hstep, ← hd]

/-- Witness for C8: `b8` holds one source `"x"` of length 2; adding a
length-3 source errors, re-adding `"x"` errors, adding a fresh `"y"` of
length 2 succeeds and appends it. -/
theorem add_input_spec_witness :
    (∃ e, b8.add_input "z" [1, 2, 3] = .error e)
    ∧ (∃ e, b8.add_input "x" [9, 9] = .error e)
    ∧ b8.add_input "y" [3, 4]
      = .ok { b8 with dataset_len := some 2,
                      input_dict := b8.input_dict ++ [("y", [3, 4])] } := by
  have hwf : BuilderWF b8 := by
    constructor
    · intro h; exact Option.noConfusion h
    · intro n hn p hp
      have hn2 : n = 2 := by
        have h2 : (some 2 : Option Nat) = some n := hn
        exact (Option.some.inj h2).symm
      subst hn2
      have hp2 : p = ("x", [1, 2]) := List.mem_singleton.mp hp
      subst hp2
      rfl
  refine ⟨(add_input_spec b8 "z" [1, 2, 3]).1 hwf ("x", [1, 2])
      (List.mem_singleton.mpr rfl) (by decide),
    (add_input_spec b8 "x" [9, 9]).2.1 rfl,
    (add_input_spec b8 "y" [3, 4]).2.2 rfl (fun n hn => ?_)⟩
  have h2 : (some 2 : Option Nat) = some n := hn
  exact (Option.some.inj h2).symm

/-! ### Theorems for claim C7 -/

theorem retain_length (k : Nat) (l : List Nat) :
    (retain k l).length = l.length - (l.length - k) := by
  simp [retain]

theorem retain_of_le (k : Nat) (l : List Nat) (h : l.length ≤ k) : retain k l = l := by
  simp [retain, Nat.sub_eq_zero_of_le h]

theorem retain_retain_append (k : Nat) (m items : List Nat) :
    retain k (retain k m ++ items) = retain k (m ++ items) := by
  unfold retain
  rw [← List.drop_append_of_le_length (Nat.sub_le m.length k), List.drop_drop]
  congr 1
  simp [List.length_drop, List.length_append]
  omega

theorem foldl_retain (k : Nat) :
    ∀ (items l0 : List Nat), l0.length ≤ k →
      items.foldl (fun l a => retain k (l ++ [a])) l0 = retain k (l0 ++ items) := by
  intro items
  induction items with
  | nil => intro l0 h; simpa using (retain_of_le k l0 h).symm
  | cons a items ih =>
    intro l0 h
    rw [List.foldl_cons]
    have hlen : (retain k (l0 ++ [a])).length ≤ k := by
      rw [retain_length]; omega
    rw [ih (retain k (l0 ++ [a])) hlen, retain_retain_append]
    simp

theorem runOps_fields (k : Nat) :
    ∀ (ops : List SaveOp) (s : Saver), s.max_to_keep = k →
      (s.runOps ops).max_to_keep = k
      ∧ (s.runOps ops).checkpoints
          = (ckptItems ops).foldl (fun l a => retain k (l ++ [a])) s.checkpoints
      ∧ (s.runOps ops).keypoints
          = (keyptItems ops).foldl (fun l a => retain k (l ++ [a])) s.keypoints
      ∧ (s.runOps ops).models
          = (modlItems ops).foldl (fun l a => retain k (l ++ [a])) s.models := by
  intro ops
  induction ops with
  | nil => intro s hs; exact ⟨hs, rfl, rfl, rfl⟩
  | cons op ops ih =>
    intro s hs
    cases op with
    | ckpt a =>
      have h := ih (s.save_checkpoint a) hs
      refine ⟨h.1, ?_, ?_, ?_⟩
      · rw [show Saver.runOps s (SaveOp.ckpt a :: ops)
              = Saver.runOps (s.save_checkpoint a) ops from rfl, h.2.1]
        simp [ckptItems, List.filterMap_cons, Saver.save_checkpoint, hs]
      · rw [show Saver.runOps s (SaveOp.ckpt a :: ops)
              = Saver.runOps (s.save_checkpoint a) ops from rfl, h.2.2.1]
        simp [keyptItems, List.filterMap_cons, Saver.save_checkpoint]
      · rw [show Saver.runOps s (SaveOp.ckpt a :: ops)
              = Saver.runOps (s.save_checkpoint a) ops from rfl, h.2.2.2]
        simp [modlItems, List.filterMap_cons, Saver.save_checkpoint]
    | keypt a =>
      have h := ih (s.save_keypoint a) hs
      refine ⟨h.1, ?_, ?_, ?_⟩
      · rw [show Saver.runOps s (SaveOp.keypt a :: ops)
              = Saver.runOps (s.save_keypoint a) ops from rfl, h.2.1]
        simp [ckptItems, List.filterMap_cons, Saver.save_keypoint]
      · rw [show Saver.runOps s (SaveOp.keypt a :: ops)
              = Saver.runOps (s.save_keypoint a) ops from rfl, h.2.2.1]
        simp [keyptItems, List.filterMap_cons, Saver.save_keypoint, hs]
      · rw [show Saver.runOps s (SaveOp.keypt a :: ops)
              = Saver.runOps (s.save_keypoint a) ops from rfl, h.2.2.2]
        simp [modlItems, List.filterMap_cons, Saver.save_keypoint]
    | modl a =>
      have h := ih (s.save_model a) hs
      refine ⟨h.1, ?_, ?_, ?_⟩
      · rw [show Saver.runOps s (SaveOp.modl a :: ops)
              = Saver.runOps (s.save_model a) ops from rfl, h.2.1]
        simp [ckptItems, List.filterMap_cons, Saver.save_model]
      · rw [show Saver.runOps s (SaveOp.modl a :: ops)
              = Saver.runOps (s.save_model a) ops from rfl, h.2.2.1]
        simp [keyptItems, List.filterMap_cons, Saver.save_model]
      · rw [show Saver.runOps s (SaveOp.modl a :: ops)
              = Saver.runOps (s.save_model a) ops from rfl, h.2.2.2]
        simp [modlItems, List.filterMap_cons, Saver.save_model, hs]

/-- C7: for a Saver with `max_to_keep = k`, after any save sequence each kind
retains exactly the suffix of its k most recently saved artifacts — so at
most k, and exactly k once more than k artifacts of that kind were saved. -/
theorem saver_retention (k : Nat) (ops : List SaveOp) :
    ((Saver.runOps { max_to_keep := k } ops).checkpoints = retain k (ckptItems ops)
      ∧ (Saver.runOps { max_to_keep := k } ops).checkpoints.length ≤ k
      ∧ (k < (ckptItems ops).length →
          (Saver.runOps { max_to_keep := k } ops).checkpoints.length = k))
    ∧ ((Saver.runOps { max_to_keep := k } ops).keypoints = retain k (keyptItems ops)
      ∧ (Saver.runOps { max_to_keep := k } ops).keypoints.length ≤ k
      ∧ (k < (keyptItems ops).length →
          (Saver.runOps { max_to_keep := k } ops).keypoints.length = k))
    ∧ ((Saver.runOps { max_to_keep := k } ops).models = retain k (modlItems ops)
      ∧ (Saver.runOps { max_to_keep := k } ops).models.length ≤ k
      ∧ (k < (modlItems ops).length →
          (Saver.runOps { max_to_keep := k } ops).models.length = k)) := by
  have h := runOps_fields k ops { max_to_keep := k } rfl
  have hc : (Saver.runOps { max_to_keep := k } ops).checkpoints
      = retain k (ckptItems ops) := by
    rw [h.2.1, foldl_retain k _ [] (by simp)]
    simp
  have hk : (Saver.runOps { max_to_keep := k } ops).keypoints
      = retain k (keyptItems ops) := by
    rw [h.2.2.1, foldl_retain k _ [] (by simp)]
    simp
  have hm : (Saver.runOps { max_to_keep := k } ops).models
      = retain k (modlItems ops) := by
    rw [h.2.2.2, foldl_retain k _ [] (by simp)]
    simp
  refine ⟨⟨hc, ?_, fun hgt => ?_⟩, ⟨hk, ?_, fun hgt => ?_⟩, ⟨hm, ?_, fun hgt => ?_⟩⟩ <;>
    first
      | (rw [hc, retain_length]; omega)
      | (rw [hk, retain_length]; omega)
      | (rw [hm, retain_length]; omega)

/-- Witness for C7: `max_to_keep = 3` and the 4-saves-per-kind sequence
`wOps`; each kind keeps its 3 most recent artifacts. -/
theorem saver_retention_witness :
    (Saver.runOps { max_to_keep := 3 } wOps).checkpoints = [1, 2, 3]
    ∧ (Saver.runOps { max_to_keep := 3 } wOps).checkpoints.length = 3
    ∧ (Saver.runOps { max_to_keep := 3 } wOps).keypoints = [11, 12, 13]
    ∧ (Saver.runOps { max_to_keep := 3 } wOps).models = [21, 22, 23] := by
  have h := saver_retention 3 wOps
  exact ⟨h.1.1, h.1.2.2 (by decide), h.2.1.1, h.2.2.1⟩

/-! ### Theorems for claim C10 -/

theorem alistLookup_map_set_ne {α : Type} (k : String) (v : α) :
    ∀ (d : List (String × α)) (k' : String), k' ≠ k →
      alistLookup (d.map (fun p => if p.1 = k then (p.1, v) else p)) k'
        = alistLookup d k' := by
  intro d
  induction d with
  | nil => intro k' _; rfl
  | cons p d ih =>
    intro k' hk
    obtain ⟨k0, v0⟩ := p
    rw [List.map_cons]
    dsimp only
    by_cases h0 : k0 = k
    · have hne : ¬ k0 = k' := fun hc => hk (hc ▸ h0)
      rw [if_pos h0]
      simp only [alistLookup]
      rw [if_neg hne, if_neg hne, ih k' hk]
    · rw [if_neg h0]
      simp only [alistLookup]
      rw [ih k' hk]

theorem alistLookup_map_set_self {α : Type} (k : String) (v : α) :
    ∀ d : List (String × α), alistMem d k = true →
      alistLookup (d.map (fun p => if p.1 = k then (p.1, v) else p)) k = some v := by
  intro d
  induction d with
  | nil => intro h; simp [alistMem, alistLookup] at h
  | cons p d ih =>
    intro h
    obtain ⟨k0, v0⟩ := p
    rw [List.map_cons]
    dsimp only
    by_cases h0 : k0 = k
    · rw [if_pos h0]
      simp only [alistLookup]
      rw [if_pos h0]
    · have h' : alistMem d k = true := by
        simpa [alistMem, alistLookup, h0] using h
      rw [if_neg h0]
      simp only [alistLookup]
      rw [if_neg h0, ih h']

theorem alistLookup_append_right {α : Type} (k : String) (v : α) :
    ∀ d : List (String × α), alistMem d k = false → ∀ k',
      alistLookup (d ++ [(k, v)]) k' = if k' = k then some v else alistLookup d k' := by
  intro d
  induction d with
  | nil =>
    intro _ k'
    by_cases hk : k = k'
    · simp [alistLookup, hk]
    · simp [alistLookup, hk, Ne.symm hk]
  | cons p d ih =>
    intro h k'
    obtain ⟨k0, v0⟩ := p
    have h0 : ¬ k0 = k := by
      intro hc
      simp [alistMem, alistLookup, hc] at h
    have h' : alistMem d k = false := by
      simpa [alistMem, alistLookup, h0] using h
    by_cases hk' : k0 = k'
    · have : ¬ k' = k := fun hc => h0 (hk'.trans hc)
      simp [alistLookup, hk', this]
    · simp [alistLookup, hk', ih h' k']

theorem alistLookup_dict_set {α : Type} (d : List (String × α)) (k : String) (v : α)
    (k' : String) :
    alistLookup (dict_set d k v) k' = if k' = k then some v else alistLookup d k' := by
  cases hmem : alistMem d k with
  | false =>
    have hset : dict_set d k v = d ++ [(k, v)] := by simp [dict_set, hmem]
    rw [hset]
    exact alistLookup_append_right k v d hmem k'
  | true =>
    have hset : dict_set d k v
        = d.map (fun p => if p.1 = k then (p.1, v) else p) := by
      simp [dict_set, hmem]
    rw [hset]
    by_cases hk : k' = k
    · rw [if_pos hk, hk]
      exact alistLookup_map_set_self k v d hmem
    · rw [if_neg hk]
      exact alistLookup_map_set_ne k v d k' hk

theorem alistLookup_not_mem {α : Type} (k : String) :
    ∀ o : List (String × α), k ∉ o.map Prod.fst → alistLookup o k = none := by
  intro o
  induction o with
  | nil => intro _; rfl
  | cons p o ih =>
    intro h
    obtain ⟨k0, v0⟩ := p
    have h0 : ¬ k0 = k := fun hc => h (by simp [hc])
    have h' : k ∉ o.map Prod.fst := fun hc => h (by simp [hc])
    simp [alistLookup, h0, ih h']

theorem alistLookup_dict_update {α : Type} (k : String) :
    ∀ (o d : List (String × α)), (o.map Prod.fst).Nodup →
      alistLookup (dict_update d o) k
        = (alistLookup o k).orElse (fun _ => alistLookup d k) := by
  intro o
  induction o with
  | nil => intro d _; simp [dict_update, alistLookup, Option.orElse]
  | cons p o ih =>
    intro d hnd
    obtain ⟨k0, v0⟩ := p
    have hnd' : (o.map Prod.fst).Nodup := (List.nodup_cons.mp hnd).2
    have hk0 : k0 ∉ o.map Prod.fst := (List.nodup_cons.mp hnd).1
    have step : dict_update d ((k0, v0) :: o) = dict_update (dict_set d k0 v0) o := rfl
    rw [step, ih (dict_set d k0 v0) hnd']
    by_cases hk : k0 = k
    · subst hk
      have ho : alistLookup o k0 = none := alistLookup_not_mem k0 o hk0
      simp [ho, alistLookup, alistLookup_dict_set, Option.orElse]
    · cases ho : alistLookup o k with
      | none =>
        have hne : ¬ k = k0 := fun hc => hk hc.symm
        simp [ho, alistLookup, hk, alistLookup_dict_set, hne, Option.orElse]
      | some v => simp [ho, alistLookup, hk, Option.orElse]

/-- C10: `get_config(path, default)` returns `default` when `path is None`,
the parsed file contents when the path exists and parses as JSON, and
`default` otherwise; `get_runtime_config` merges so that, for any key, a
local-config entry overrides a global-config entry, which overrides the
built-in default. -/
theorem config_spec (fs : String → Option (Option (List (String × String))))
    (global_path : String) (local_path : Option String) (p : String)
    (default cfg : List (String × String)) (k : String) :
    get_config none fs default = default
    ∧ (fs p = some (some cfg) → get_config (some p) fs default = cfg)
    ∧ (fs p = some none → get_config (some p) fs default = default)
    ∧ (fs p = none → get_config (some p) fs default = default)
    ∧ ((((get_config (some global_path) fs GLOBAL_DEFAULT).map Prod.fst).Nodup) →
      (((get_config local_path fs []).map Prod.fst).Nodup) →
      alistLookup (get_runtime_config fs global_path local_path) k
        = (alistLookup (get_config local_path fs []) k).orElse (fun _ =>
            (alistLookup (get_config (some global_path) fs GLOBAL_DEFAULT) k).orElse
              (fun _ => alistLookup GLOBAL_DEFAULT k))) := by
  refine ⟨rfl, fun h => by simp [get_config, h], fun h => by simp [get_config, h],
    fun h => by simp [get_config, h], fun hg hl => ?_⟩
  simp only [get_runtime_config]
  rw [alistLookup_dict_update k _ _ hl, alistLookup_dict_update k _ _ hg]

/-- Witness for C10: a filesystem with a global config (overriding `"home"`,
adding `"k1"`) and a local config (overriding `"k1"`). -/
theorem config_spec_witness :
    get_config none wFs [("d", "d0")] = [("d", "d0")]
    ∧ get_config (some "/g") wFs GLOBAL_DEFAULT = [("home", "G"), ("k1", "g1")]
    ∧ get_config (some "/nope") wFs [("d", "d0")] = [("d", "d0")]
    ∧ alistLookup (get_runtime_config wFs "/g" (some "/l")) "k1" = some "l1"
    ∧ alistLookup (get_runtime_config wFs "/g" (some "/l")) "home" = some "G"
    ∧ alistLookup (get_runtime_config wFs "/g" (some "/l")) "cache_dir"
      = some "~/.cache/lumo" := by
  refine ⟨(config_spec wFs "/g" (some "/l") "/g" [("d", "d0")] [] "k1").1,
    (config_spec wFs "/g" (some "/l") "/g" [("d", "d0")]
      [("home", "G"), ("k1", "g1")] "k1").2.1 rfl,
    (config_spec wFs "/g" (some "/l") "/nope" [("d", "d0")] [] "k1").2.2.2.1 rfl,
    (config_spec wFs "/g" (some "/l") "/g" [] [] "k1").2.2.2.2 (by decide) (by decide),
    (config_spec wFs "/g" (some "/l") "/g" [] [] "home").2.2.2.2 (by decide) (by decide),
    (config_spec wFs "/g" (some "/l") "/g" [] [] "cache_dir").2.2.2.2
      (by decide) (by decide)⟩

end Lumo
